import Mathlib

/-!
# Verification of `Documentation/sphinx/ditaa.py`

A shallow embedding of the sphinx `ditaa` extension
(`src/Documentation/sphinx/ditaa.py`) and proofs about it.

Modelling conventions:
* A Python `str` is a `List Nat` of Unicode code points (`PyStr`).
* A Python `bytes` is a `List Nat` of byte values (`< 256`).
* The program is modelled under Python 3 semantics (the file targets
  Python 3 sphinx; in particular `IOError` is an alias of `OSError`, so
  the `except IOError` arm at line 177 of the source is unreachable, and
  `'%s' % b` for a `bytes` value `b` yields the `repr` text `b'...'`).
* `repr` of `bytes`, `str` and `list`-of-`str` values is embedded
  faithfully for the byte/ASCII range used by the program; code points
  that CPython would print raw because they are printable non-ASCII are
  conservatively written with `\u`/`\U` escapes (this only affects which
  concrete escape text appears, not any claim proved here).
* The SHA-1 digest is an external cryptographic primitive and is passed
  in as an explicit function parameter `sha` from hash input bytes to the
  lowercase hex-digest string.
-/

namespace DitaaSpec

/-- A Python `str`: a list of Unicode code points. -/
abbrev PyStr := List Nat

/-- Code points of a Lean string literal, used to transcribe the literal
strings of the source. -/
def strLit (s : String) : PyStr := s.data.map Char.toNat

/-- A Python `str` is valid when all its code points are below `0x110000`. -/
def ValidPyStr (s : PyStr) : Prop := ∀ c ∈ s, c < 1114112

/-- Validity for a list of Python strings. -/
def ValidStrList (xs : List PyStr) : Prop := ∀ s ∈ xs, ValidPyStr s

/-- A byte string: all values below 256. -/
def ValidBytes (b : List Nat) : Prop := ∀ c ∈ b, c < 256

/-- Lowercase hexadecimal digit character for a value below 16
(as used by CPython `\x`/`\u` escapes). -/
def hexDigit (n : Nat) : Nat := if n < 10 then 48 + n else 87 + n

/-- Inverse of `hexDigit`. -/
def unhex (d : Nat) : Nat := if d < 58 then d - 48 else d - 87

/-!
## UTF-8 (`code.encode('utf-8')`, line 124, and `hashkey.encode('utf-8')`,
lines 128-129)
-/

/-- UTF-8 encoding of a single Unicode code point. -/
def utf8EncodeChar (c : Nat) : List Nat :=
  if c < 128 then [c]
  else if c < 2048 then [192 + c / 64, 128 + c % 64]
  else if c < 65536 then [224 + c / 4096, 128 + c / 64 % 64, 128 + c % 64]
  else [240 + c / 262144, 128 + c / 4096 % 64, 128 + c / 64 % 64, 128 + c % 64]

/-- UTF-8 encoding of a Python string (`s.encode('utf-8')`). -/
def pyEncodeUtf8 : PyStr → List Nat
  | [] => []
  | c :: s => utf8EncodeChar c ++ pyEncodeUtf8 s

/-- One-token UTF-8 decoder, used to show the encoding is a prefix code. -/
def decodeUtf8Tok : List Nat → Option (Nat × List Nat)
  | [] => none
  | b :: r =>
    if b < 128 then some (b, r)
    else if b < 224 then
      match r with
      | b2 :: r2 => some ((b - 192) * 64 + (b2 - 128), r2)
      | [] => none
    else if b < 240 then
      match r with
      | b2 :: b3 :: r3 => some ((b - 224) * 4096 + (b2 - 128) * 64 + (b3 - 128), r3)
      | _ => none
    else
      match r with
      | b2 :: b3 :: b4 :: r4 =>
          some ((b - 240) * 262144 + (b2 - 128) * 4096 + (b3 - 128) * 64 + (b4 - 128), r4)
      | _ => none

/-!
## Python `repr` of `bytes` values (`str(code)` at line 125, and
`'%s' % stderr` at lines 187-188)
-/

/-- Quote character selected by CPython for a `bytes` repr: `'` unless the
data contains `'` and no `"`. -/
def bytesQuote (b : List Nat) : Nat := if 39 ∈ b ∧ ¬ 34 ∈ b then 34 else 39

/-- CPython escaping of one byte inside a `bytes` repr with quote `q`. -/
def escByteChar (q c : Nat) : List Nat :=
  if c = q ∨ c = 92 then [92, c]
  else if c = 9 then [92, 116]
  else if c = 10 then [92, 110]
  else if c = 13 then [92, 114]
  else if c < 32 ∨ 127 ≤ c then [92, 120, hexDigit (c / 16), hexDigit (c % 16)]
  else [c]

/-- Escaped content of a `bytes` repr. -/
def byteContentEnc (q : Nat) : List Nat → PyStr
  | [] => []
  | c :: b => escByteChar q c ++ byteContentEnc q b

/-- `repr` of a Python 3 `bytes` value: `b` + quote + escaped data + quote. -/
def pyReprBytes (b : List Nat) : PyStr :=
  98 :: bytesQuote b :: (byteContentEnc (bytesQuote b) b ++ [bytesQuote b])

/-- One-token decoder for `bytes`-repr content, showing it is a prefix code. -/
def decodeByteTok : PyStr → Option (Nat × PyStr)
  | [] => none
  | c :: r =>
    if c = 92 then
      match r with
      | [] => none
      | d :: r2 =>
        if d = 116 then some (9, r2)
        else if d = 110 then some (10, r2)
        else if d = 114 then some (13, r2)
        else if d = 120 then
          match r2 with
          | h1 :: h2 :: r3 => some (16 * unhex h1 + unhex h2, r3)
          | _ => none
        else some (d, r2)
    else some (c, r)

/-!
## Python `repr` of `str` and `list`-of-`str` values (`str(options)` and
`str(app.builder.config.ditaa_args)` at lines 125-127, `%r` at lines 96-98
and 160-162)
-/

/-- Quote character selected by CPython for a `str` repr. -/
def strQuote (s : PyStr) : Nat := if 39 ∈ s ∧ ¬ 34 ∈ s then 34 else 39

/-- Escaping of one code point inside a `str` repr with quote `q`.
Printable ASCII other than the quote and backslash is kept raw; everything
else is escaped (`\t`, `\n`, `\r`, `\xNN`, `\uNNNN`, `\UNNNNNNNN`). -/
def escStrChar (q c : Nat) : List Nat :=
  if c = q ∨ c = 92 then [92, c]
  else if c = 9 then [92, 116]
  else if c = 10 then [92, 110]
  else if c = 13 then [92, 114]
  else if 32 ≤ c ∧ c < 127 then [c]
  else if c < 256 then [92, 120, hexDigit (c / 16), hexDigit (c % 16)]
  else if c < 65536 then
    [92, 117, hexDigit (c / 4096), hexDigit (c / 256 % 16),
     hexDigit (c / 16 % 16), hexDigit (c % 16)]
  else
    [92, 85, hexDigit (c / 268435456), hexDigit (c / 16777216 % 16),
     hexDigit (c / 1048576 % 16), hexDigit (c / 65536 % 16),
     hexDigit (c / 4096 % 16), hexDigit (c / 256 % 16),
     hexDigit (c / 16 % 16), hexDigit (c % 16)]

/-- Escaped content of a `str` repr. -/
def strContentEnc (q : Nat) : PyStr → PyStr
  | [] => []
  | c :: s => escStrChar q c ++ strContentEnc q s

/-- `repr` of a Python `str` value: quote + escaped content + quote. -/
def pyReprStr (s : PyStr) : PyStr :=
  strQuote s :: (strContentEnc (strQuote s) s ++ [strQuote s])

/-- One-token decoder for `str`-repr content. -/
def decodeStrTok : PyStr → Option (Nat × PyStr)
  | [] => none
  | c :: r =>
    if c = 92 then
      match r with
      | [] => none
      | d :: r2 =>
        if d = 116 then some (9, r2)
        else if d = 110 then some (10, r2)
        else if d = 114 then some (13, r2)
        else if d = 120 then
          match r2 with
          | h1 :: h2 :: r3 => some (16 * unhex h1 + unhex h2, r3)
          | _ => none
        else if d = 117 then
          match r2 with
          | h1 :: h2 :: h3 :: h4 :: r5 =>
              some (4096 * unhex h1 + 256 * unhex h2 + 16 * unhex h3 + unhex h4, r5)
          | _ => none
        else if d = 85 then
          match r2 with
          | h1 :: h2 :: h3 :: h4 :: h5 :: h6 :: h7 :: h8 :: r9 =>
              some (268435456 * unhex h1 + 16777216 * unhex h2 + 1048576 * unhex h3
                    + 65536 * unhex h4 + 4096 * unhex h5 + 256 * unhex h6
                    + 16 * unhex h7 + unhex h8, r9)
          | _ => none
        else some (d, r2)
    else some (c, r)

/-- Body of the CPython `list` repr: elements joined by a comma and space. -/
def reprListBody : List PyStr → PyStr
  | [] => []
  | [s] => pyReprStr s
  | s :: s' :: t => pyReprStr s ++ (44 :: 32 :: reprListBody (s' :: t))

/-- `repr` of a Python list of strings: `[` + joined element reprs + `]`. -/
def pyReprStrList (xs : List PyStr) : PyStr := 91 :: (reprListBody xs ++ [93])

/-!
## The `Ditaa` directive (`Ditaa.run`, lines 78-119)
-/

/-- Python `str.isspace` over a single code point, as used by
`dotcode.strip()` at line 101. -/
def pyIsSpace (c : Nat) : Bool :=
  [9, 10, 11, 12, 13, 28, 29, 30, 31, 32, 133, 160, 5760,
   8192, 8193, 8194, 8195, 8196, 8197, 8198, 8199, 8200, 8201, 8202,
   8232, 8233, 8239, 8287, 12288].contains c

/-- `'\n'.join(content)` (line 100). -/
def joinNL : List PyStr → PyStr
  | [] => []
  | [s] => s
  | s :: s' :: t => s ++ (10 :: joinNL (s' :: t))

/-- `s.strip()`: remove leading and trailing whitespace. -/
def pyStrip (s : PyStr) : PyStr :=
  ((s.dropWhile pyIsSpace).reverse.dropWhile pyIsSpace).reverse

/-- The transient `ditaa` placeholder node (`class ditaa`, lines 39-40):
`node['code']`, `node['options']`, `node['img_options']` (lines 105-108). -/
structure DitaaNode where
  code : PyStr
  options : List PyStr
  img_options : List (PyStr × Option PyStr)
  deriving Repr, DecidableEq

/-- One iteration of the option loop of `Ditaa.run` (lines 110-115): a key
starting with `--` is appended to `node['options']`, followed by its value
when one was given (`directives.flag` options carry `None`); any other key
is stored in `node['img_options']`. -/
def partStep (acc : List PyStr × List (PyStr × Option PyStr))
    (kv : PyStr × Option PyStr) : List PyStr × List (PyStr × Option PyStr) :=
  if kv.1.take 2 = [45, 45] then
    (acc.1 ++ (kv.1 :: (match kv.2 with | some v => [v] | none => [])), acc.2)
  else
    (acc.1, acc.2 ++ [kv])

/-- The option-partition loop of `Ditaa.run` (lines 109-115) over the
insertion-ordered option items. -/
def optionsPartition (opts : List (PyStr × Option PyStr)) :
    List PyStr × List (PyStr × Option PyStr) :=
  opts.foldl partStep ([], [])

/-- Node construction of `Ditaa.run` (lines 105-115). -/
def mkDitaaNode (code : PyStr) (opts : List (PyStr × Option PyStr)) : DitaaNode :=
  { code := code
    options := (optionsPartition opts).1
    img_options := (optionsPartition opts).2 }

/-- A node returned by `Ditaa.run`: either the `ditaa` placeholder or a
`system_message` produced by `reporter.warning(msg, line=lineno)`. -/
inductive RNode where
  | diagram (n : DitaaNode)
  | sysMessage (msg : PyStr) (line : Nat)
  deriving Repr, DecidableEq

/-- Whether a returned node is the `ditaa` placeholder node. -/
def isDiagram : RNode → Bool
  | RNode.diagram _ => true
  | RNode.sysMessage _ _ => false

/-- Host-framework services used by `Ditaa.run`: `env.relfn2path` (returns
the document-relative and absolute paths) and reading a file as UTF-8 text
(`codecs.open(filename, 'r', 'utf-8')`, lines 90-94; `none` models an
`IOError`/`OSError` while opening or reading). -/
structure DirectiveEnv where
  relfn2path : PyStr → PyStr × PyStr
  fileRead : PyStr → Option PyStr

/-- The inputs of one directive invocation: `self.arguments`,
`self.content`, `self.options` (insertion-ordered) and `self.lineno`. -/
structure DirectiveInput where
  arguments : List PyStr
  content : List PyStr
  options : List (PyStr × Option PyStr)
  lineno : Nat

/-- Result of `Ditaa.run`: the returned node list, plus the file paths
registered via `env.note_dependency` (line 88). -/
structure RunResult where
  nodes : List RNode
  dependencies : List PyStr
  deriving Repr, DecidableEq

/-- Warning text at lines 83-85. -/
def bothMsg : PyStr :=
  strLit "Ditaa directive cannot have both content and a filename argument"

/-- Warning text at lines 96-98 (`'External Ditaa file %r not found or reading it failed' % filename`). -/
def extFileMsg (filename : PyStr) : PyStr :=
  strLit "External Ditaa file " ++ pyReprStr filename ++
    strLit " not found or reading it failed"

/-- Warning text at lines 102-104. -/
def ignoreMsg : PyStr := strLit "Ignoring \"ditaa\" directive without content."

/-- `Ditaa.run` (lines 78-119). The `print(self.arguments)` at line 80
writes to standard output and has no effect on the result. -/
def DitaaRun (env : DirectiveEnv) (d : DirectiveInput) : RunResult :=
  match d.arguments with
  | arg :: _ =>
    if d.content ≠ [] then
      { nodes := [RNode.sysMessage bothMsg d.lineno], dependencies := [] }
    else
      -- rel_filename, filename = env.relfn2path(self.arguments[0])
      -- env.note_dependency(rel_filename)   (before the read is attempted)
      match env.fileRead (env.relfn2path arg).2 with
      | none =>
        { nodes := [RNode.sysMessage (extFileMsg (env.relfn2path arg).2) d.lineno]
          dependencies := [(env.relfn2path arg).1] }
      | some dotcode =>
        { nodes := [RNode.diagram (mkDitaaNode dotcode d.options)]
          dependencies := [(env.relfn2path arg).1] }
  | [] =>
    if pyStrip (joinNL d.content) = [] then
      { nodes := [RNode.sysMessage ignoreMsg d.lineno], dependencies := [] }
    else
      { nodes := [RNode.diagram (mkDitaaNode (joinNL d.content) d.options)]
        dependencies := [] }

/-!
## The render cache (`render_ditaa`, lines 121-189)
-/

/-- `errno.ENOENT` (via `sphinx.util.osutil`). -/
def pyENOENT : Nat := 2

/-- `errno.EPIPE` (via `sphinx.util.osutil`). -/
def pyEPIPE : Nat := 32

/-- `posixpath.join`/`os.path.join` (POSIX) of two components. -/
def pathJoin (a b : PyStr) : PyStr :=
  if b.take 1 = [47] then b
  else if a = [] then b
  else if a.getLast? = some 47 then a ++ b
  else a ++ (47 :: b)

/-- Renderer configuration and builder data used by `render_ditaa`:
`app.builder.config.ditaa`, `app.builder.config.ditaa_args`,
`app.builder.config.ditaa_log_enable`, `app.builder.outdir`,
`app.builder.imagedir`, `app.builder.format`, and the value of
`relative_uri(app.builder.env.docname, app.builder.imagedir)` (a
host-framework path computation, carried as a configuration input). -/
structure AppConfig where
  ditaa : PyStr
  ditaa_args : List PyStr
  ditaa_log_enable : Bool
  outdir : PyStr
  imagedir : PyStr
  format : PyStr
  relUri : PyStr
  deriving Repr, DecidableEq

/-- Mutable build-process state touched by `render_ditaa`: the filesystem
(most recent write first), the current working directory, the
`app.builder._ditaa_warned_dot` flag, the warnings emitted through
`app.builder.warn`, and a count of successfully spawned renderer
subprocesses (instrumentation of `Popen`). -/
structure BuildState where
  files : List (PyStr × List Nat)
  cwd : PyStr
  warned_dot : Bool
  warnings : List PyStr
  spawns : Nat
  deriving Repr, DecidableEq

/-- Whether a file exists at path `p` (`path.isfile`, line 137). -/
def fsHas (fs : List (PyStr × List Nat)) (p : PyStr) : Bool :=
  fs.any (fun e => e.1 == p)

/-- Write a file (shadowing any earlier entry for the same path). -/
def fsWrite (fs : List (PyStr × List Nat)) (p : PyStr) (b : List Nat) :
    List (PyStr × List Nat) := (p, b) :: fs

/-- Apply the files created by the renderer process, resolved against the
directory that was the working directory when it was spawned. -/
def applyWrites (d : PyStr) : List (PyStr × List Nat) → List (PyStr × List Nat) →
    List (PyStr × List Nat)
  | fs, [] => fs
  | fs, (n, b) :: ws => applyWrites d (fsWrite fs (pathJoin d n) b) ws

/-- Outcome of `p.communicate(code)` (line 172): a normal
`(stdout, stderr)` pair, an `OSError` with the given `errno`, or any other
exception (not an `OSError`), which no `except` arm catches. -/
inductive CommResult where
  | ok (stdout stderr : List Nat)
  | oserror (errno : Nat)
  | otherFault (tag : Nat)
  deriving Repr, DecidableEq

/-- Behaviour of a successfully spawned renderer subprocess: the
`communicate` outcome, the data still readable directly from its streams
(`p.stdout.read()`, `p.stderr.read()`, line 184), its exit status
(`p.returncode`), and the files it wrote (relative to its working
directory) while it ran. -/
structure ProcBehavior where
  commResult : CommResult
  directStdout : List Nat
  directStderr : List Nat
  returncode : Int
  filesWritten : List (PyStr × List Nat)
  deriving Repr, DecidableEq

/-- Outcome of `Popen(ditaa_args, ...)` (line 156): an `OSError` with the
given `errno`, or a running process. -/
inductive SpawnResult where
  | spawnError (errno : Nat)
  | proc (p : ProcBehavior)
  deriving Repr, DecidableEq

/-- How one call of `render_ditaa` ends: a normal `return`, a raised
`DitaaError`, a re-raised `OSError`, or a propagated non-`OSError`
exception. -/
inductive RenderOutcome where
  | ret (relfn outfn : Option PyStr)
  | ditaaError (msg : PyStr)
  | osErrorRaised (errno : Nat)
  | faultRaised (tag : Nat)
  deriving Repr, DecidableEq

/-- `hashkey` (lines 125-127): `str(code) + str(options) +
str(app.builder.config.ditaa) + str(app.builder.config.ditaa_args)`, where
`code` is already UTF-8 bytes (line 124). -/
def hashkeyOf (cfg : AppConfig) (code : PyStr) (options : List PyStr) : PyStr :=
  pyReprBytes (pyEncodeUtf8 code) ++ pyReprStrList options ++
    cfg.ditaa ++ pyReprStrList cfg.ditaa_args

/-- `sha(hashkey.encode('utf-8')).hexdigest()` (lines 128-129). -/
def digestOf (sha : List Nat → PyStr) (cfg : AppConfig) (code : PyStr)
    (options : List PyStr) : PyStr :=
  sha (pyEncodeUtf8 (hashkeyOf cfg code options))

/-- `infname = '%s-%s.%s' % (prefix, digest, "ditaa")` (line 128). -/
def infnameOf ( pfx digest : PyStr) : PyStr :=
  pfx ++ (45 :: digest) ++ strLit ".ditaa"

/-- `outfname = '%s-%s.%s' % (prefix, digest, "png")` (line 129). -/
def outfnameOf ( pfx digest : PyStr) : PyStr :=
  pfx ++ (45 :: digest) ++ strLit ".png"

/-- `path.join(app.builder.outdir, app.builder.imagedir)` (lines 132, 150). -/
def imgdirOf (cfg : AppConfig) : PyStr := pathJoin cfg.outdir cfg.imagedir

/-- `infullfn` (line 132). -/
def infullOf (sha : List Nat → PyStr) (cfg : AppConfig) (code : PyStr)
    (options : List PyStr) ( pfx : PyStr) : PyStr :=
  pathJoin (imgdirOf cfg) (infnameOf pfx (digestOf sha cfg code options))

/-- `outrelfn = posixpath.join(relative_uri(...), outfname)` (line 133). -/
def outrelOf (sha : List Nat → PyStr) (cfg : AppConfig) (code : PyStr)
    (options : List PyStr) ( pfx : PyStr) : PyStr :=
  pathJoin cfg.relUri (outfnameOf pfx (digestOf sha cfg code options))

/-- `outfullfn` (line 134). -/
def outfullOf (sha : List Nat → PyStr) (cfg : AppConfig) (code : PyStr)
    (options : List PyStr) ( pfx : PyStr) : PyStr :=
  pathJoin (imgdirOf cfg) (outfnameOf pfx (digestOf sha cfg code options))

/-- Warning text at lines 160-162
(`'ditaa command %r cannot be run (needed for ditaa output), check the ditaa setting' % app.builder.config.ditaa`). -/
def cmdWarnMsg (cfg : AppConfig) : PyStr :=
  strLit "ditaa command " ++ pyReprStr cfg.ditaa ++
    strLit " cannot be run (needed for ditaa output), check the ditaa setting"

/-- The `DitaaError` message at lines 187-188: each captured stream is a
`bytes` value formatted with `%s`, which in Python 3 inserts its repr. -/
def ditaaErrorMsg (stderr stdout : List Nat) : PyStr :=
  strLit "ditaa exited with error:\n[stderr]\n" ++ pyReprBytes stderr ++
    strLit "\n[stdout]\n" ++ pyReprBytes stdout

/-- The filesystem after the cache-miss input write (lines 146-148): the
markup bytes are written to `infullfn`. `ensuredir` (line 140) only
creates directories and is not reflected in the flat file map. -/
def inputWrittenFiles (sha : List Nat → PyStr) (cfg : AppConfig) (code : PyStr)
    (options : List PyStr) ( pfx : PyStr) (fs : List (PyStr × List Nat)) :
    List (PyStr × List Nat) :=
  fsWrite fs (infullOf sha cfg code options pfx) (pyEncodeUtf8 code)

/-- State after `Popen` raised a non-`ENOENT` `OSError` (line 159): the
exception propagates before `os.chdir(currpath)` runs, so the working
directory is left at the image directory. -/
def spawnFailState (sha : List Nat → PyStr) (cfg : AppConfig) (code : PyStr)
    (options : List PyStr) ( pfx : PyStr) (st : BuildState) : BuildState :=
  { files := inputWrittenFiles sha cfg code options pfx st.files
    cwd := imgdirOf cfg
    warned_dot := st.warned_dot
    warnings := st.warnings
    spawns := st.spawns }

/-- State after the `ENOENT` arm (lines 160-165): warn, set
`_ditaa_warned_dot`, restore the working directory, return. -/
def enoentState (sha : List Nat → PyStr) (cfg : AppConfig) (code : PyStr)
    (options : List PyStr) ( pfx : PyStr) (st : BuildState) : BuildState :=
  { files := inputWrittenFiles sha cfg code options pfx st.files
    cwd := st.cwd
    warned_dot := true
    warnings := st.warnings ++ [cmdWarnMsg cfg]
    spawns := st.spawns }

/-- State after a successful spawn: working directory restored (line 167),
spawn counted, and the files the renderer wrote (relative to the image
directory, its working directory) applied. -/
def procState (sha : List Nat → PyStr) (cfg : AppConfig) (p : ProcBehavior)
    (code : PyStr) (options : List PyStr) ( pfx : PyStr) (st : BuildState) :
    BuildState :=
  { files := applyWrites (imgdirOf cfg)
      (inputWrittenFiles sha cfg code options pfx st.files) p.filesWritten
    cwd := st.cwd
    warned_dot := st.warned_dot
    warnings := st.warnings
    spawns := st.spawns + 1 }

/-- Lines 167-189 for a successfully spawned process: communicate, with
the broken-pipe (`EPIPE`) fallback that reads both streams directly and
waits for exit (lines 168-185; under Python 3 the `except IOError` arm at
lines 177-180 is unreachable because `IOError` is `OSError`), then the
exit-status check (lines 186-188) and the success return (line 189). -/
def procOutcome (sha : List Nat → PyStr) (cfg : AppConfig) (p : ProcBehavior)
    (code : PyStr) (options : List PyStr) ( pfx : PyStr) :
    RenderOutcome :=
  match p.commResult with
  | CommResult.ok stdout stderr =>
    if p.returncode ≠ 0 then RenderOutcome.ditaaError (ditaaErrorMsg stderr stdout)
    else RenderOutcome.ret (some (outrelOf sha cfg code options pfx))
                           (some (outfullOf sha cfg code options pfx))
  | CommResult.oserror e =>
    if e ≠ pyEPIPE then RenderOutcome.osErrorRaised e
    else
      -- wentWrong: stdout, stderr = p.stdout.read(), p.stderr.read(); p.wait()
      if p.returncode ≠ 0 then
        RenderOutcome.ditaaError (ditaaErrorMsg p.directStderr p.directStdout)
      else RenderOutcome.ret (some (outrelOf sha cfg code options pfx))
                             (some (outfullOf sha cfg code options pfx))
  | CommResult.otherFault t => RenderOutcome.faultRaised t

/-- `render_ditaa(app, code, options, format, prefix='ditaa')`
(lines 121-189). The `format` argument only feeds the dead `rel_imgpath`
binding at line 131 and does not influence the result. -/
def render_ditaa (sha : List Nat → PyStr) (cfg : AppConfig) (beh : SpawnResult)
    (code : PyStr) (options : List PyStr) (format : PyStr) ( pfx : PyStr)
    (st : BuildState) : RenderOutcome × BuildState :=
  if fsHas st.files (outfullOf sha cfg code options pfx) then
    -- cache hit (lines 137-138)
    (RenderOutcome.ret (some (outrelOf sha cfg code options pfx))
                       (some (outfullOf sha cfg code options pfx)), st)
  else
    match beh with
    | SpawnResult.spawnError e =>
      if e ≠ pyENOENT then
        (RenderOutcome.osErrorRaised e, spawnFailState sha cfg code options pfx st)
      else
        (RenderOutcome.ret none none, enoentState sha cfg code options pfx st)
    | SpawnResult.proc p =>
      (procOutcome sha cfg p code options pfx,
       procState sha cfg p code options pfx st)

/-!
## Tree resolution (`on_doctree_resolved`, lines 191-199)
-/

/-- The `nodes.image` built at line 196: `uri=relfn`,
`candidates={'*': outfn}`, plus the node's `img_options` splatted as
attributes. -/
structure ImageNode where
  uri : Option PyStr
  candidates : Option PyStr
  img_options : List (PyStr × Option PyStr)
  deriving Repr, DecidableEq

/-- What tree resolution does to a single `ditaa` node: on a normal
return of `render_ditaa`, replace the node with an image node; an
exception propagates and aborts the document build. -/
inductive ResolveResult where
  | replaced (img : ImageNode)
  | buildError (o : RenderOutcome)
  deriving Repr, DecidableEq

/-- One iteration of the `on_doctree_resolved` loop (lines 193-199) for a
single `ditaa` node: the replacement with `nodes.image(...)` at lines
196-199 is unconditional on every normal return of `render_ditaa`. -/
def resolveDitaaNode (sha : List Nat → PyStr) (cfg : AppConfig)
    (beh : SpawnResult) (node : DitaaNode) (st : BuildState) :
    ResolveResult × BuildState :=
  match render_ditaa sha cfg beh node.code node.options cfg.format
      (strLit "ditaa") st with
  | (RenderOutcome.ret relfn outfn, st') =>
    (ResolveResult.replaced
      { uri := relfn, candidates := outfn, img_options := node.img_options }, st')
  | (o, st') => (ResolveResult.buildError o, st')

/-!
## Auxiliary notions used by the theorems, and concrete sample data
-/

/-- The stream pair the exit-status check at line 186 sees: the
`communicate` result on the normal path, or the directly read streams on
the broken-pipe path; `none` when the routine never reaches line 186. -/
def commStreams (p : ProcBehavior) : Option (List Nat × List Nat) :=
  match p.commResult with
  | CommResult.ok stdout stderr => some (stdout, stderr)
  | CommResult.oserror e =>
    if e = pyEPIPE then some (p.directStdout, p.directStderr) else none
  | CommResult.otherFault _ => none

/-- Plain printable ASCII without quotes or backslash: text whose `bytes`
repr is the text itself between `b'` and `'`. -/
def plainBytes (b : List Nat) : Prop :=
  ∀ c ∈ b, 32 ≤ c ∧ c < 127 ∧ c ≠ 34 ∧ c ≠ 39 ∧ c ≠ 92

/-- `small` occurs contiguously inside `big`. -/
def containsSub (small big : PyStr) : Prop := ∃ u v, big = u ++ small ++ v

/-- A concrete stand-in for the SHA-1 hex digest used by witnesses: the
hex spelling of the input bytes (injective on byte strings, which is all
a witness needs from the no-collision assumption). -/
def hexOfBytes : List Nat → PyStr
  | [] => []
  | c :: b => hexDigit (c / 16) :: hexDigit (c % 16) :: hexOfBytes b

/-- Sample renderer configuration. -/
def cfgA : AppConfig :=
  { ditaa := strLit "ditaa"
    ditaa_args := []
    ditaa_log_enable := true
    outdir := strLit "/build/html"
    imagedir := strLit "_images"
    format := strLit "html"
    relUri := strLit "_images" }

/-- Sample initial build state: empty cache, nothing warned. -/
def st0 : BuildState :=
  { files := [], cwd := strLit "/src/doc", warned_dot := false
    warnings := [], spawns := 0 }

/-- Sample markup. -/
def codeA : PyStr := strLit "A->B"

/-- The default cache-file name stem (`prefix='ditaa'`). -/
def pfxA : PyStr := strLit "ditaa"

/-- A well-behaved renderer process: exits 0 and writes the expected
output file in its working directory. -/
def procOkA : ProcBehavior :=
  { commResult := CommResult.ok [] []
    directStdout := []
    directStderr := []
    returncode := 0
    filesWritten := [(outfnameOf pfxA (digestOf hexOfBytes cfgA codeA []), [137, 80, 78, 71])] }

/-- Build state after one successful sample render of `codeA`. -/
def st1A : BuildState :=
  (render_ditaa hexOfBytes cfgA (SpawnResult.proc procOkA) codeA [] (strLit "html")
    pfxA st0).2

/-- One render attempt with the renderer executable missing
(`Popen` raises `OSError` with `errno == ENOENT`). -/
def renderMissing (st : BuildState) : RenderOutcome × BuildState :=
  render_ditaa hexOfBytes cfgA (SpawnResult.spawnError pyENOENT) codeA []
    (strLit "html") pfxA st

/-- Sample `ditaa` placeholder node. -/
def nodeA : DitaaNode := { code := codeA, options := [], img_options := [] }

/-- The scenario stderr text. -/
def badSyntaxBytes : List Nat := strLit "bad syntax"

/-- A failing renderer process: exit status 2, `bad syntax` on stderr. -/
def procBadA : ProcBehavior :=
  { commResult := CommResult.ok [] badSyntaxBytes
    directStdout := []
    directStderr := []
    returncode := 2
    filesWritten := [] }

/-- A process whose `communicate` raises a broken pipe, then exits 0. -/
def procPipeA : ProcBehavior :=
  { commResult := CommResult.oserror pyEPIPE
    directStdout := []
    directStderr := []
    returncode := 0
    filesWritten := [] }

/-- A process whose `communicate` raises `OSError` with `errno == EACCES`. -/
def procDeniedA : ProcBehavior :=
  { commResult := CommResult.oserror 13
    directStdout := []
    directStderr := []
    returncode := 0
    filesWritten := [] }

/-- Sample directive environment: files resolve but cannot be read. -/
def envA : DirectiveEnv :=
  { relfn2path := fun a => (a, pathJoin (strLit "/src/doc") a)
    fileRead := fun _ => none }

/-- Directive environment in which every file reads as the empty string. -/
def envEmptyFile : DirectiveEnv :=
  { relfn2path := fun a => (a, pathJoin (strLit "/src/doc") a)
    fileRead := fun _ => some [] }

/-- A directive invocation supplying both content and a file argument. -/
def dBoth : DirectiveInput :=
  { arguments := [strLit "x.ditaa"], content := [strLit "A->B"]
    options := [], lineno := 7 }

/-- A directive invocation with a file argument and no content. -/
def dArgOnly : DirectiveInput :=
  { arguments := [strLit "x.ditaa"], content := [], options := [], lineno := 3 }

/-- A directive invocation with no argument and no content. -/
def dNoContent : DirectiveInput :=
  { arguments := [], content := [], options := [], lineno := 4 }

/-- Sample option set with renderer (`--`) and image options. -/
def optsA : List (PyStr × Option PyStr) :=
  [(strLit "--scale", some (strLit "2")),
   (strLit "width", some (strLit "70")),
   (strLit "--no-shadows", none)]

/-!
## Theorems

### List append cancellation helpers
-/

theorem appendCancelL {α : Type} {l m n : List α} (h : l ++ m = l ++ n) : m = n :=
  List.append_cancel_left h

theorem appendCancelR {α : Type} {l m n : List α} (h : l ++ n = m ++ n) : l = m :=
  List.append_cancel_right h

/-!
### UTF-8 is injective on valid strings
-/

theorem unhex_hexDigit (x : Nat) (h : x < 16) : unhex (hexDigit x) = x := by
  unfold unhex hexDigit
  split_ifs <;> omega

theorem utf8EncodeChar_ne_nil (c : Nat) : utf8EncodeChar c ≠ [] := by
  unfold utf8EncodeChar
  split_ifs <;> simp

theorem decodeUtf8Tok_round (c : Nat) (hc : c < 1114112) (r : List Nat) :
    decodeUtf8Tok (utf8EncodeChar c ++ r) = some (c, r) := by
  unfold utf8EncodeChar
  split_ifs with h1 h2 h3
  · simp only [List.cons_append, List.nil_append, decodeUtf8Tok]
    rw [if_pos h1]
  · simp only [List.cons_append, List.nil_append, decodeUtf8Tok]
    have hx1 : ¬ (192 + c / 64 < 128) := by omega
    have hx2 : 192 + c / 64 < 224 := by omega
    rw [if_neg hx1, if_pos hx2]
    have hv : (192 + c / 64 - 192) * 64 + (128 + c % 64 - 128) = c := by omega
    rw [hv]
  · simp only [List.cons_append, List.nil_append, decodeUtf8Tok]
    have hx1 : ¬ (224 + c / 4096 < 128) := by omega
    have hx2 : ¬ (224 + c / 4096 < 224) := by omega
    have hx3 : 224 + c / 4096 < 240 := by omega
    rw [if_neg hx1, if_neg hx2, if_pos hx3]
    have hv : (224 + c / 4096 - 224) * 4096 + (128 + c / 64 % 64 - 128) * 64
        + (128 + c % 64 - 128) = c := by omega
    rw [hv]
  · simp only [List.cons_append, List.nil_append, decodeUtf8Tok]
    have hx1 : ¬ (240 + c / 262144 < 128) := by omega
    have hx2 : ¬ (240 + c / 262144 < 224) := by omega
    have hx3 : ¬ (240 + c / 262144 < 240) := by omega
    rw [if_neg hx1, if_neg hx2, if_neg hx3]
    have hv : (240 + c / 262144 - 240) * 262144 + (128 + c / 4096 % 64 - 128) * 4096
        + (128 + c / 64 % 64 - 128) * 64 + (128 + c % 64 - 128) = c := by omega
    rw [hv]

theorem pyEncodeUtf8_inj : ∀ s₁ s₂ : PyStr, ValidPyStr s₁ → ValidPyStr s₂ →
    pyEncodeUtf8 s₁ = pyEncodeUtf8 s₂ → s₁ = s₂ := by
  intro s₁
  induction s₁ with
  | nil =>
    intro s₂ _ h₂ h
    cases s₂ with
    | nil => rfl
    | cons c s =>
      exfalso
      simp only [pyEncodeUtf8] at h
      exact utf8EncodeChar_ne_nil c (List.append_eq_nil.mp h.symm).1
  | cons c₁ t₁ ih =>
    intro s₂ h₁ h₂ h
    cases s₂ with
    | nil =>
      exfalso
      simp only [pyEncodeUtf8] at h
      exact utf8EncodeChar_ne_nil c₁ (List.append_eq_nil.mp h).1
    | cons c₂ t₂ =>
      simp only [pyEncodeUtf8] at h
      have hc₁ : c₁ < 1114112 := h₁ c₁ (by simp)
      have hc₂ : c₂ < 1114112 := h₂ c₂ (by simp)
      have hd := decodeUtf8Tok_round c₁ hc₁ (pyEncodeUtf8 t₁)
      rw [h, decodeUtf8Tok_round c₂ hc₂ (pyEncodeUtf8 t₂)] at hd
      have hcc : c₂ = c₁ ∧ pyEncodeUtf8 t₂ = pyEncodeUtf8 t₁ := by
        constructor
        · exact congrArg (fun x => (x.getD (0, [])).1) hd
        · exact congrArg (fun x => (x.getD (0, [])).2) hd
      obtain ⟨hc, ht⟩ := hcc
      have := ih t₂ (fun x hx => h₁ x (by simp [hx])) (fun x hx => h₂ x (by simp [hx])) ht.symm
      rw [hc, this]

theorem utf8EncodeChar_lt_256 (c : Nat) (hc : c < 1114112) :
    ∀ b ∈ utf8EncodeChar c, b < 256 := by
  unfold utf8EncodeChar
  split_ifs <;> simp <;> omega

theorem pyEncodeUtf8_lt_256 : ∀ s : PyStr, ValidPyStr s → ValidBytes (pyEncodeUtf8 s) := by
  intro s
  induction s with
  | nil => intro _ c hc; simp [pyEncodeUtf8] at hc
  | cons a t ih =>
    intro hv c hc
    simp only [pyEncodeUtf8, List.mem_append] at hc
    rcases hc with hc | hc
    · exact utf8EncodeChar_lt_256 a (hv a (by simp)) c hc
    · exact ih (fun x hx => hv x (by simp [hx])) c hc

/-!
### The `bytes` repr is injective on byte strings
-/

theorem bytesQuote_cases (b : List Nat) : bytesQuote b = 34 ∨ bytesQuote b = 39 := by
  unfold bytesQuote
  split_ifs <;> simp

theorem escByteChar_head (q c : Nat) (hq : q = 34 ∨ q = 39) :
    ∃ h t, escByteChar q c = h :: t ∧ h ≠ q := by
  unfold escByteChar
  split_ifs with h1 h2 h3 h4 h5
  · exact ⟨92, [c], rfl, by omega⟩
  · exact ⟨92, [116], rfl, by omega⟩
  · exact ⟨92, [110], rfl, by omega⟩
  · exact ⟨92, [114], rfl, by omega⟩
  · exact ⟨92, [120, hexDigit (c / 16), hexDigit (c % 16)], rfl, by omega⟩
  · exact ⟨c, [], rfl, by omega⟩

theorem decodeByteTok_round (q c : Nat) (hq : q = 34 ∨ q = 39) (hc : c < 256)
    (r : PyStr) : decodeByteTok (escByteChar q c ++ r) = some (c, r) := by
  unfold escByteChar
  split_ifs with h1 h2 h3 h4 h5
  · have e1 : c ≠ 116 := by omega
    have e2 : c ≠ 110 := by omega
    have e3 : c ≠ 114 := by omega
    have e4 : c ≠ 120 := by omega
    simp [decodeByteTok, e1, e2, e3, e4]
  · subst h2; simp [decodeByteTok]
  · subst h3; simp [decodeByteTok]
  · subst h4; simp [decodeByteTok]
  · simp only [List.cons_append, List.nil_append, decodeByteTok]
    simp [unhex_hexDigit (c / 16) (by omega), unhex_hexDigit (c % 16) (by omega)]
    omega
  · have e1 : c ≠ 92 := by omega
    simp [decodeByteTok, e1]

theorem byteContentEnc_inj (q : Nat) (hq : q = 34 ∨ q = 39) :
    ∀ b₁ b₂ r₁ r₂ : List Nat, ValidBytes b₁ → ValidBytes b₂ →
    byteContentEnc q b₁ ++ (q :: r₁) = byteContentEnc q b₂ ++ (q :: r₂) →
    b₁ = b₂ ∧ r₁ = r₂ := by
  intro b₁
  induction b₁ with
  | nil =>
    intro b₂ r₁ r₂ _ h₂ h
    cases b₂ with
    | nil =>
      simp only [byteContentEnc, List.nil_append] at h
      injection h with h1 h2
      exact ⟨rfl, h2⟩
    | cons c b =>
      exfalso
      obtain ⟨hd, tl, hE, hne⟩ := escByteChar_head q c hq
      simp only [byteContentEnc, List.nil_append, hE, List.cons_append] at h
      injection h with h1 h2
      exact hne h1.symm
  | cons c₁ t₁ ih =>
    intro b₂ r₁ r₂ h₁ h₂ h
    cases b₂ with
    | nil =>
      exfalso
      obtain ⟨hd, tl, hE, hne⟩ := escByteChar_head q c₁ hq
      simp only [byteContentEnc, List.nil_append, hE, List.cons_append] at h
      injection h with h1 h2
      exact hne h1
    | cons c₂ t₂ =>
      simp only [byteContentEnc, List.append_assoc] at h
      have hc₁ : c₁ < 256 := h₁ c₁ (by simp)
      have hc₂ : c₂ < 256 := h₂ c₂ (by simp)
      have hd := decodeByteTok_round q c₁ hq hc₁ (byteContentEnc q t₁ ++ (q :: r₁))
      rw [h, decodeByteTok_round q c₂ hq hc₂ (byteContentEnc q t₂ ++ (q :: r₂))] at hd
      have hc : c₂ = c₁ := congrArg (fun x => (x.getD (0, [])).1) hd
      have ht : byteContentEnc q t₂ ++ (q :: r₂) = byteContentEnc q t₁ ++ (q :: r₁) :=
        congrArg (fun x => (x.getD (0, [])).2) hd
      obtain ⟨ht₁, hr⟩ := ih t₂ r₁ r₂ (fun x hx => h₁ x (by simp [hx]))
        (fun x hx => h₂ x (by simp [hx])) ht.symm
      exact ⟨by rw [hc, ht₁], hr⟩

theorem pyReprBytes_inj (b₁ b₂ : List Nat) (h₁ : ValidBytes b₁) (h₂ : ValidBytes b₂)
    (h : pyReprBytes b₁ = pyReprBytes b₂) : b₁ = b₂ := by
  unfold pyReprBytes at h
  injection h with h0 h'
  injection h' with hq h3
  rw [← hq] at h3
  exact (byteContentEnc_inj (bytesQuote b₁) (bytesQuote_cases b₁) b₁ b₂ [] [] h₁ h₂ h3).1

/-!
### The `str` repr and the `list`-of-`str` repr are injective
-/

theorem strQuote_cases (s : PyStr) : strQuote s = 34 ∨ strQuote s = 39 := by
  unfold strQuote
  split_ifs <;> simp

theorem escStrChar_head (q c : Nat) (hq : q = 34 ∨ q = 39) :
    ∃ h t, escStrChar q c = h :: t ∧ h ≠ q := by
  unfold escStrChar
  split_ifs with h1 h2 h3 h4 h5 h6 h7
  · exact ⟨92, _, rfl, by omega⟩
  · exact ⟨92, _, rfl, by omega⟩
  · exact ⟨92, _, rfl, by omega⟩
  · exact ⟨92, _, rfl, by omega⟩
  · exact ⟨c, _, rfl, by omega⟩
  · exact ⟨92, _, rfl, by omega⟩
  · exact ⟨92, _, rfl, by omega⟩
  · exact ⟨92, _, rfl, by omega⟩

theorem decodeStrTok_round (q c : Nat) (hq : q = 34 ∨ q = 39) (hc : c < 1114112)
    (r : PyStr) : decodeStrTok (escStrChar q c ++ r) = some (c, r) := by
  unfold escStrChar
  split_ifs with h1 h2 h3 h4 h5 h6 h7
  · have e1 : c ≠ 116 := by omega
    have e2 : c ≠ 110 := by omega
    have e3 : c ≠ 114 := by omega
    have e4 : c ≠ 120 := by omega
    have e5 : c ≠ 117 := by omega
    have e6 : c ≠ 85 := by omega
    simp [decodeStrTok, e1, e2, e3, e4, e5, e6]
  · subst h2; simp [decodeStrTok]
  · subst h3; simp [decodeStrTok]
  · subst h4; simp [decodeStrTok]
  · have e1 : c ≠ 92 := by omega
    simp [decodeStrTok, e1]
  · simp only [List.cons_append, List.nil_append, decodeStrTok]
    simp [unhex_hexDigit (c / 16) (by omega), unhex_hexDigit (c % 16) (by omega)]
    omega
  · simp only [List.cons_append, List.nil_append, decodeStrTok]
    simp [unhex_hexDigit (c / 4096) (by omega), unhex_hexDigit (c / 256 % 16) (by omega),
          unhex_hexDigit (c / 16 % 16) (by omega), unhex_hexDigit (c % 16) (by omega)]
    omega
  · simp only [List.cons_append, List.nil_append, decodeStrTok]
    simp [unhex_hexDigit (c / 268435456) (by omega),
          unhex_hexDigit (c / 16777216 % 16) (by omega),
          unhex_hexDigit (c / 1048576 % 16) (by omega),
          unhex_hexDigit (c / 65536 % 16) (by omega),
          unhex_hexDigit (c / 4096 % 16) (by omega),
          unhex_hexDigit (c / 256 % 16) (by omega),
          unhex_hexDigit (c / 16 % 16) (by omega),
          unhex_hexDigit (c % 16) (by omega)]
    omega

theorem strContentEnc_inj (q : Nat) (hq : q = 34 ∨ q = 39) :
    ∀ s₁ s₂ r₁ r₂ : PyStr, ValidPyStr s₁ → ValidPyStr s₂ →
    strContentEnc q s₁ ++ (q :: r₁) = strContentEnc q s₂ ++ (q :: r₂) →
    s₁ = s₂ ∧ r₁ = r₂ := by
  intro s₁
  induction s₁ with
  | nil =>
    intro s₂ r₁ r₂ _ h₂ h
    cases s₂ with
    | nil =>
      simp only [strContentEnc, List.nil_append] at h
      injection h with h1 h2
      exact ⟨rfl, h2⟩
    | cons c s =>
      exfalso
      obtain ⟨hd, tl, hE, hne⟩ := escStrChar_head q c hq
      simp only [strContentEnc, List.nil_append, hE, List.cons_append] at h
      injection h with h1 h2
      exact hne h1.symm
  | cons c₁ t₁ ih =>
    intro s₂ r₁ r₂ h₁ h₂ h
    cases s₂ with
    | nil =>
      exfalso
      obtain ⟨hd, tl, hE, hne⟩ := escStrChar_head q c₁ hq
      simp only [strContentEnc, List.nil_append, hE, List.cons_append] at h
      injection h with h1 h2
      exact hne h1
    | cons c₂ t₂ =>
      simp only [strContentEnc, List.append_assoc] at h
      have hc₁ : c₁ < 1114112 := h₁ c₁ (by simp)
      have hc₂ : c₂ < 1114112 := h₂ c₂ (by simp)
      have hd := decodeStrTok_round q c₁ hq hc₁ (strContentEnc q t₁ ++ (q :: r₁))
      rw [h, decodeStrTok_round q c₂ hq hc₂ (strContentEnc q t₂ ++ (q :: r₂))] at hd
      have hc : c₂ = c₁ := congrArg (fun x => (x.getD (0, [])).1) hd
      have ht : strContentEnc q t₂ ++ (q :: r₂) = strContentEnc q t₁ ++ (q :: r₁) :=
        congrArg (fun x => (x.getD (0, [])).2) hd
      obtain ⟨ht₁, hr⟩ := ih t₂ r₁ r₂ (fun x hx => h₁ x (by simp [hx]))
        (fun x hx => h₂ x (by simp [hx])) ht.symm
      exact ⟨by rw [hc, ht₁], hr⟩

theorem pyReprStr_append_inj (s₁ s₂ r₁ r₂ : PyStr) (h₁ : ValidPyStr s₁)
    (h₂ : ValidPyStr s₂) (h : pyReprStr s₁ ++ r₁ = pyReprStr s₂ ++ r₂) :
    s₁ = s₂ ∧ r₁ = r₂ := by
  unfold pyReprStr at h
  simp only [List.cons_append, List.append_assoc, List.singleton_append] at h
  injection h with hq h3
  rw [← hq] at h3
  exact strContentEnc_inj (strQuote s₁) (strQuote_cases s₁) s₁ s₂ r₁ r₂ h₁ h₂ h3

theorem reprListBody_cons (x : PyStr) (t : List PyStr) :
    ∃ tl, reprListBody (x :: t) = strQuote x :: tl := by
  cases t with
  | nil => exact ⟨_, rfl⟩
  | cons y u =>
    refine ⟨strContentEnc (strQuote x) x ++ [strQuote x] ++ (44 :: 32 :: reprListBody (y :: u)), ?_⟩
    simp [reprListBody, pyReprStr]

theorem reprListBody_inj : ∀ xs₁ xs₂ : List PyStr, ∀ r₁ r₂ : PyStr,
    ValidStrList xs₁ → ValidStrList xs₂ →
    reprListBody xs₁ ++ (93 :: r₁) = reprListBody xs₂ ++ (93 :: r₂) →
    xs₁ = xs₂ ∧ r₁ = r₂ := by
  intro xs₁
  induction xs₁ with
  | nil =>
    intro xs₂ r₁ r₂ _ h₂ h
    cases xs₂ with
    | nil =>
      simp only [reprListBody, List.nil_append] at h
      injection h with h1 h2
      exact ⟨rfl, h2⟩
    | cons y u =>
      exfalso
      obtain ⟨tl, hB⟩ := reprListBody_cons y u
      simp only [reprListBody, List.nil_append, hB, List.cons_append] at h
      injection h with h1 h2
      have := strQuote_cases y
      omega
  | cons x t₁ ih =>
    intro xs₂ r₁ r₂ h₁ h₂ h
    cases xs₂ with
    | nil =>
      exfalso
      obtain ⟨tl, hB⟩ := reprListBody_cons x t₁
      simp only [reprListBody, List.nil_append, hB, List.cons_append] at h
      injection h with h1 h2
      have := strQuote_cases x
      omega
    | cons y t₂ =>
      have hvx : ValidPyStr x := h₁ x (by simp)
      have hvy : ValidPyStr y := h₂ y (by simp)
      cases t₁ with
      | nil =>
        cases t₂ with
        | nil =>
          simp only [reprListBody] at h
          obtain ⟨hxy, hr⟩ := pyReprStr_append_inj x y (93 :: r₁) (93 :: r₂) hvx hvy h
          injection hr with _ hr₂
          exact ⟨by rw [hxy], hr₂⟩
        | cons z₂ u₂ =>
          exfalso
          simp only [reprListBody, List.cons_append, List.append_assoc] at h
          obtain ⟨hxy, hr⟩ := pyReprStr_append_inj x y _ _ hvx hvy h
          injection hr with h93 _
          exact absurd h93 (by omega)
      | cons z₁ u₁ =>
        cases t₂ with
        | nil =>
          exfalso
          simp only [reprListBody, List.cons_append, List.append_assoc] at h
          obtain ⟨hxy, hr⟩ := pyReprStr_append_inj x y _ _ hvx hvy h
          injection hr with h93 _
          exact absurd h93 (by omega)
        | cons z₂ u₂ =>
          simp only [reprListBody, List.cons_append, List.append_assoc] at h
          obtain ⟨hxy, hr⟩ := pyReprStr_append_inj x y _ _ hvx hvy h
          injection hr with _ hr'
          injection hr' with _ hr''
          obtain ⟨ht, hrr⟩ := ih (z₂ :: u₂) r₁ r₂
            (fun s hs => h₁ s (by simp at hs ⊢; tauto))
            (fun s hs => h₂ s (by simp at hs ⊢; tauto)) hr''
          exact ⟨by rw [hxy, ht], hrr⟩

theorem pyReprStrList_inj (xs₁ xs₂ : List PyStr) (h₁ : ValidStrList xs₁)
    (h₂ : ValidStrList xs₂) (h : pyReprStrList xs₁ = pyReprStrList xs₂) :
    xs₁ = xs₂ := by
  unfold pyReprStrList at h
  injection h with h0 h3
  exact (reprListBody_inj xs₁ xs₂ [] [] h₁ h₂ h3).1

/-!
### Repr output is ASCII, hence a valid Python string
-/

theorem hexDigit_lt_128 (x : Nat) (h : x < 16) : hexDigit x < 128 := by
  unfold hexDigit
  split_ifs <;> omega

theorem escByteChar_lt_128 (q c : Nat) (hq : q = 34 ∨ q = 39) (hc : c < 256) :
    ∀ x ∈ escByteChar q c, x < 128 := by
  unfold escByteChar
  split_ifs with h1 h2 h3 h4 h5 <;> intro x hx <;> simp at hx
  · omega
  · omega
  · omega
  · omega
  · rcases hx with hx | hx | hx | hx
    · omega
    · omega
    · exact hx ▸ hexDigit_lt_128 _ (by omega)
    · exact hx ▸ hexDigit_lt_128 _ (by omega)
  · omega

theorem byteContentEnc_lt_128 (q : Nat) (hq : q = 34 ∨ q = 39) :
    ∀ b : List Nat, ValidBytes b → ∀ x ∈ byteContentEnc q b, x < 128 := by
  intro b
  induction b with
  | nil => intro _ x hx; simp [byteContentEnc] at hx
  | cons c t ih =>
    intro hv x hx
    simp only [byteContentEnc, List.mem_append] at hx
    rcases hx with hx | hx
    · exact escByteChar_lt_128 q c hq (hv c (by simp)) x hx
    · exact ih (fun y hy => hv y (by simp [hy])) x hx

theorem pyReprBytes_lt_128 (b : List Nat) (hb : ValidBytes b) :
    ∀ x ∈ pyReprBytes b, x < 128 := by
  intro x hx
  unfold pyReprBytes at hx
  have hq := bytesQuote_cases b
  simp only [List.mem_cons, List.mem_append, List.mem_singleton] at hx
  rcases hx with hx | hx | hx | hx | hx
  · omega
  · omega
  · exact byteContentEnc_lt_128 (bytesQuote b) hq b hb x hx
  · omega
  · simp at hx

theorem escStrChar_lt_128 (q c : Nat) (hq : q = 34 ∨ q = 39) (hc : c < 1114112) :
    ∀ x ∈ escStrChar q c, x < 128 := by
  unfold escStrChar
  split_ifs with h1 h2 h3 h4 h5 h6 h7 <;> intro x hx <;> simp at hx
  · omega
  · omega
  · omega
  · omega
  · omega
  · rcases hx with hx | hx | hx | hx
    · omega
    · omega
    · exact hx ▸ hexDigit_lt_128 _ (by omega)
    · exact hx ▸ hexDigit_lt_128 _ (by omega)
  · rcases hx with hx | hx | hx | hx | hx | hx
    · omega
    · omega
    all_goals exact hx ▸ hexDigit_lt_128 _ (by omega)
  · rcases hx with hx | hx | hx | hx | hx | hx | hx | hx | hx | hx
    · omega
    · omega
    all_goals exact hx ▸ hexDigit_lt_128 _ (by omega)

theorem strContentEnc_lt_128 (q : Nat) (hq : q = 34 ∨ q = 39) :
    ∀ s : PyStr, ValidPyStr s → ∀ x ∈ strContentEnc q s, x < 128 := by
  intro s
  induction s with
  | nil => intro _ x hx; simp [strContentEnc] at hx
  | cons c t ih =>
    intro hv x hx
    simp only [strContentEnc, List.mem_append] at hx
    rcases hx with hx | hx
    · exact escStrChar_lt_128 q c hq (hv c (by simp)) x hx
    · exact ih (fun y hy => hv y (by simp [hy])) x hx

theorem pyReprStr_lt_128 (s : PyStr) (hs : ValidPyStr s) :
    ∀ x ∈ pyReprStr s, x < 128 := by
  intro x hx
  unfold pyReprStr at hx
  have hq := strQuote_cases s
  simp only [List.mem_cons, List.mem_append, List.mem_singleton] at hx
  rcases hx with hx | hx | hx | hx
  · omega
  · exact strContentEnc_lt_128 (strQuote s) hq s hs x hx
  · omega
  · simp at hx

theorem reprListBody_lt_128 : ∀ xs : List PyStr, ValidStrList xs →
    ∀ x ∈ reprListBody xs, x < 128 := by
  intro xs
  induction xs with
  | nil => intro _ x hx; simp [reprListBody] at hx
  | cons s t ih =>
    intro hv x hx
    cases t with
    | nil =>
      simp only [reprListBody] at hx
      exact pyReprStr_lt_128 s (hv s (by simp)) x hx
    | cons s' u =>
      simp only [reprListBody, List.mem_append, List.mem_cons] at hx
      rcases hx with hx | hx | hx | hx
      · exact pyReprStr_lt_128 s (hv s (by simp)) x hx
      · omega
      · omega
      · exact ih (fun y hy => hv y (by simp at hy ⊢; tauto)) x hx

theorem pyReprStrList_lt_128 (xs : List PyStr) (hs : ValidStrList xs) :
    ∀ x ∈ pyReprStrList xs, x < 128 := by
  intro x hx
  unfold pyReprStrList at hx
  simp only [List.mem_cons, List.mem_append, List.mem_singleton] at hx
  rcases hx with hx | hx | hx | hx
  · omega
  · exact reprListBody_lt_128 xs hs x hx
  · omega
  · simp at hx

theorem hashkeyOf_valid (cfg : AppConfig) (M : PyStr) (O : List PyStr)
    (hM : ValidPyStr M) (hO : ValidStrList O) (hE : ValidPyStr cfg.ditaa)
    (hA : ValidStrList cfg.ditaa_args) : ValidPyStr (hashkeyOf cfg M O) := by
  intro x hx
  unfold hashkeyOf at hx
  simp only [List.mem_append] at hx
  rcases hx with ((hx | hx) | hx) | hx
  · have := pyReprBytes_lt_128 (pyEncodeUtf8 M) (pyEncodeUtf8_lt_256 M hM) x hx
    omega
  · have := pyReprStrList_lt_128 O hO x hx
    omega
  · exact hE x hx
  · have := pyReprStrList_lt_128 cfg.ditaa_args hA x hx
    omega

/-!
### Injectivity of the cache key in each input component
-/

theorem hashkeyOf_inj_code (cfg₁ cfg₂ : AppConfig) (M₁ M₂ : PyStr) (O : List PyStr)
    (hM₁ : ValidPyStr M₁) (hM₂ : ValidPyStr M₂)
    (hE : cfg₁.ditaa = cfg₂.ditaa) (hA : cfg₁.ditaa_args = cfg₂.ditaa_args)
    (h : hashkeyOf cfg₁ M₁ O = hashkeyOf cfg₂ M₂ O) : M₁ = M₂ := by
  unfold hashkeyOf at h
  rw [← hE, ← hA] at h
  simp only [List.append_assoc] at h
  have h' := appendCancelR h
  exact pyEncodeUtf8_inj M₁ M₂ hM₁ hM₂
    (pyReprBytes_inj _ _ (pyEncodeUtf8_lt_256 M₁ hM₁) (pyEncodeUtf8_lt_256 M₂ hM₂) h')

theorem hashkeyOf_inj_options (cfg₁ cfg₂ : AppConfig) (M : PyStr) (O₁ O₂ : List PyStr)
    (hO₁ : ValidStrList O₁) (hO₂ : ValidStrList O₂)
    (hE : cfg₁.ditaa = cfg₂.ditaa) (hA : cfg₁.ditaa_args = cfg₂.ditaa_args)
    (h : hashkeyOf cfg₁ M O₁ = hashkeyOf cfg₂ M O₂) : O₁ = O₂ := by
  unfold hashkeyOf at h
  rw [← hE, ← hA] at h
  simp only [List.append_assoc] at h
  exact pyReprStrList_inj O₁ O₂ hO₁ hO₂ (appendCancelR (appendCancelL h))

theorem hashkeyOf_inj_exe (cfg₁ cfg₂ : AppConfig) (M : PyStr) (O : List PyStr)
    (hA : cfg₁.ditaa_args = cfg₂.ditaa_args)
    (h : hashkeyOf cfg₁ M O = hashkeyOf cfg₂ M O) : cfg₁.ditaa = cfg₂.ditaa := by
  unfold hashkeyOf at h
  rw [← hA] at h
  simp only [List.append_assoc] at h
  exact appendCancelR (appendCancelL (appendCancelL h))

theorem hashkeyOf_inj_args (cfg₁ cfg₂ : AppConfig) (M : PyStr) (O : List PyStr)
    (hA₁ : ValidStrList cfg₁.ditaa_args) (hA₂ : ValidStrList cfg₂.ditaa_args)
    (hE : cfg₁.ditaa = cfg₂.ditaa)
    (h : hashkeyOf cfg₁ M O = hashkeyOf cfg₂ M O) :
    cfg₁.ditaa_args = cfg₂.ditaa_args := by
  unfold hashkeyOf at h
  rw [← hE] at h
  simp only [List.append_assoc] at h
  exact pyReprStrList_inj _ _ hA₁ hA₂ (appendCancelL (appendCancelL (appendCancelL h)))

theorem outfnameOf_inj ( pfx d₁ d₂ : PyStr)
    (h : outfnameOf pfx d₁ = outfnameOf pfx d₂) : d₁ = d₂ := by
  unfold outfnameOf at h
  simp only [List.append_assoc, List.cons_append] at h
  have h1 := appendCancelL h
  injection h1 with h2 h3
  exact appendCancelR h3

/-- C2: for two render requests that differ in exactly one input component
— the markup text, the renderer option list (including any addition,
removal or reordering), the configured renderer executable, or the global
renderer arguments — the hash inputs differ, and therefore (under the
no-collision assumption `hColl` on the digest function at these two
inputs) the computed digests and output filenames differ. Identical
inputs yield identical digests and filenames definitionally, since
`hashkeyOf`, `digestOf` and `outfnameOf` are functions of exactly these
components. -/
theorem c2_cache_key_injective (sha : List Nat → PyStr) (cfg₁ cfg₂ : AppConfig)
    (M₁ M₂ : PyStr) (O₁ O₂ : List PyStr) ( pfx : PyStr)
    (hM₁ : ValidPyStr M₁) (hM₂ : ValidPyStr M₂)
    (hO₁ : ValidStrList O₁) (hO₂ : ValidStrList O₂)
    (hE₁ : ValidPyStr cfg₁.ditaa) (hE₂ : ValidPyStr cfg₂.ditaa)
    (hA₁ : ValidStrList cfg₁.ditaa_args) (hA₂ : ValidStrList cfg₂.ditaa_args)
    (hdiff :
      (M₁ ≠ M₂ ∧ O₁ = O₂ ∧ cfg₁.ditaa = cfg₂.ditaa ∧ cfg₁.ditaa_args = cfg₂.ditaa_args) ∨
      (M₁ = M₂ ∧ O₁ ≠ O₂ ∧ cfg₁.ditaa = cfg₂.ditaa ∧ cfg₁.ditaa_args = cfg₂.ditaa_args) ∨
      (M₁ = M₂ ∧ O₁ = O₂ ∧ cfg₁.ditaa ≠ cfg₂.ditaa ∧ cfg₁.ditaa_args = cfg₂.ditaa_args) ∨
      (M₁ = M₂ ∧ O₁ = O₂ ∧ cfg₁.ditaa = cfg₂.ditaa ∧ cfg₁.ditaa_args ≠ cfg₂.ditaa_args))
    (hColl : sha (pyEncodeUtf8 (hashkeyOf cfg₁ M₁ O₁))
        = sha (pyEncodeUtf8 (hashkeyOf cfg₂ M₂ O₂)) →
      pyEncodeUtf8 (hashkeyOf cfg₁ M₁ O₁) = pyEncodeUtf8 (hashkeyOf cfg₂ M₂ O₂)) :
    hashkeyOf cfg₁ M₁ O₁ ≠ hashkeyOf cfg₂ M₂ O₂ ∧
    digestOf sha cfg₁ M₁ O₁ ≠ digestOf sha cfg₂ M₂ O₂ ∧
    outfnameOf pfx (digestOf sha cfg₁ M₁ O₁) ≠
      outfnameOf pfx (digestOf sha cfg₂ M₂ O₂) := by
  have hkey : hashkeyOf cfg₁ M₁ O₁ ≠ hashkeyOf cfg₂ M₂ O₂ := by
    intro hk
    rcases hdiff with ⟨hM, hO, hE, hA⟩ | ⟨hM, hO, hE, hA⟩ | ⟨hM, hO, hE, hA⟩ | ⟨hM, hO, hE, hA⟩
    · subst hO
      exact hM (hashkeyOf_inj_code cfg₁ cfg₂ M₁ M₂ O₁ hM₁ hM₂ hE hA hk)
    · subst hM
      exact hO (hashkeyOf_inj_options cfg₁ cfg₂ M₁ O₁ O₂ hO₁ hO₂ hE hA hk)
    · subst hM; subst hO
      exact hE (hashkeyOf_inj_exe cfg₁ cfg₂ M₁ O₁ hA hk)
    · subst hM; subst hO
      exact hA (hashkeyOf_inj_args cfg₁ cfg₂ M₁ O₁ hA₁ hA₂ hE hk)
  have hdig : digestOf sha cfg₁ M₁ O₁ ≠ digestOf sha cfg₂ M₂ O₂ := by
    intro hd
    exact hkey (pyEncodeUtf8_inj _ _ (hashkeyOf_valid cfg₁ M₁ O₁ hM₁ hO₁ hE₁ hA₁)
      (hashkeyOf_valid cfg₂ M₂ O₂ hM₂ hO₂ hE₂ hA₂) (hColl hd))
  exact ⟨hkey, hdig, fun hf => hdig (outfnameOf_inj pfx _ _ hf)⟩

/-- C2 witness: changing the markup from `A` to `B` with everything else
fixed changes the hash input, the digest and the output filename. -/
theorem c2_witness :
    hashkeyOf cfgA (strLit "A") [] ≠ hashkeyOf cfgA (strLit "B") [] ∧
    digestOf hexOfBytes cfgA (strLit "A") [] ≠ digestOf hexOfBytes cfgA (strLit "B") [] ∧
    outfnameOf pfxA (digestOf hexOfBytes cfgA (strLit "A") []) ≠
      outfnameOf pfxA (digestOf hexOfBytes cfgA (strLit "B") []) :=
  c2_cache_key_injective hexOfBytes cfgA cfgA (strLit "A") (strLit "B") [] [] pfxA
    (by unfold ValidPyStr; decide) (by unfold ValidPyStr; decide)
    (fun s hs => absurd hs (List.not_mem_nil s))
    (fun s hs => absurd hs (List.not_mem_nil s))
    (by unfold ValidPyStr; decide) (by unfold ValidPyStr; decide)
    (fun s hs => absurd hs (List.not_mem_nil s))
    (fun s hs => absurd hs (List.not_mem_nil s))
    (Or.inl ⟨by decide, rfl, rfl, rfl⟩)
    (fun h => absurd h (by decide))

/-!
### Unfolding lemmas for `render_ditaa`, and filesystem facts
-/

theorem render_hit (sha : List Nat → PyStr) (cfg : AppConfig) (beh : SpawnResult)
    (code : PyStr) (options : List PyStr) (format : PyStr) ( pfx : PyStr)
    (st : BuildState)
    (h : fsHas st.files (outfullOf sha cfg code options pfx) = true) :
    render_ditaa sha cfg beh code options format pfx st =
      (RenderOutcome.ret (some (outrelOf sha cfg code options pfx))
        (some (outfullOf sha cfg code options pfx)), st) := by
  unfold render_ditaa
  rw [if_pos h]

theorem render_miss_enoent (sha : List Nat → PyStr) (cfg : AppConfig)
    (code : PyStr) (options : List PyStr) (format : PyStr) ( pfx : PyStr)
    (st : BuildState)
    (h : fsHas st.files (outfullOf sha cfg code options pfx) = false) :
    render_ditaa sha cfg (SpawnResult.spawnError pyENOENT) code options format pfx st =
      (RenderOutcome.ret none none, enoentState sha cfg code options pfx st) := by
  unfold render_ditaa
  rw [if_neg (by simp [h])]
  simp

theorem render_miss_spawn_other (sha : List Nat → PyStr) (cfg : AppConfig)
    (e : Nat) (code : PyStr) (options : List PyStr) (format : PyStr) ( pfx : PyStr)
    (st : BuildState) (he : e ≠ pyENOENT)
    (h : fsHas st.files (outfullOf sha cfg code options pfx) = false) :
    render_ditaa sha cfg (SpawnResult.spawnError e) code options format pfx st =
      (RenderOutcome.osErrorRaised e, spawnFailState sha cfg code options pfx st) := by
  unfold render_ditaa
  rw [if_neg (by simp [h])]
  simp [he]

theorem render_miss_proc (sha : List Nat → PyStr) (cfg : AppConfig)
    (p : ProcBehavior) (code : PyStr) (options : List PyStr) (format : PyStr)
    ( pfx : PyStr) (st : BuildState)
    (h : fsHas st.files (outfullOf sha cfg code options pfx) = false) :
    render_ditaa sha cfg (SpawnResult.proc p) code options format pfx st =
      (procOutcome sha cfg p code options pfx,
       procState sha cfg p code options pfx st) := by
  unfold render_ditaa
  rw [if_neg (by simp [h])]

theorem procOutcome_ret (sha : List Nat → PyStr) (cfg : AppConfig)
    (p : ProcBehavior) (code : PyStr) (options : List PyStr) ( pfx : PyStr)
    (r₁ r₂ : Option PyStr)
    (h : procOutcome sha cfg p code options pfx = RenderOutcome.ret r₁ r₂) :
    p.returncode = 0 ∧ r₁ = some (outrelOf sha cfg code options pfx) ∧
      r₂ = some (outfullOf sha cfg code options pfx) := by
  unfold procOutcome at h
  split at h
  · split at h
    · exact absurd h (by simp)
    · rename_i hrc
      injection h with h1 h2
      exact ⟨by omega, h1.symm, h2.symm⟩
  · split at h
    · exact absurd h (by simp)
    · split at h
      · exact absurd h (by simp)
      · rename_i hrc
        injection h with h1 h2
        exact ⟨by omega, h1.symm, h2.symm⟩
  · exact absurd h (by simp)

theorem render_spawns_le (sha : List Nat → PyStr) (cfg : AppConfig)
    (beh : SpawnResult) (code : PyStr) (options : List PyStr) (format : PyStr)
    ( pfx : PyStr) (st : BuildState) :
    (render_ditaa sha cfg beh code options format pfx st).2.spawns ≤ st.spawns + 1 := by
  unfold render_ditaa
  split
  · simp
  · split
    · split <;> simp [enoentState, spawnFailState]
    · simp [procState]

theorem fsHas_fsWrite_mono (fs : List (PyStr × List Nat)) (p : PyStr) (b : List Nat)
    (pth : PyStr) (h : fsHas fs pth = true) : fsHas (fsWrite fs p b) pth = true := by
  simp only [fsHas, fsWrite, List.any_cons]
  rw [fsHas] at h
  simp [h]

theorem fsHas_applyWrites_mono (d : PyStr) :
    ∀ ws fs pth, fsHas fs pth = true → fsHas (applyWrites d fs ws) pth = true := by
  intro ws
  induction ws with
  | nil => intro fs pth h; simpa [applyWrites] using h
  | cons w t ih =>
    intro fs pth h
    cases w with
    | mk n b =>
      simp only [applyWrites]
      exact ih _ _ (fsHas_fsWrite_mono fs (pathJoin d n) b pth h)

theorem fsHas_applyWrites_mem (d : PyStr) :
    ∀ ws fs n b, (n, b) ∈ ws →
    fsHas (applyWrites d fs ws) (pathJoin d n) = true := by
  intro ws
  induction ws with
  | nil => intro fs n b h; simp at h
  | cons w t ih =>
    intro fs n b h
    cases w with
    | mk m c =>
      rcases List.mem_cons.mp h with h | h
      · injection h with h1 h2
        subst h1
        simp only [applyWrites]
        exact fsHas_applyWrites_mono d t _ _ (by simp [fsHas, fsWrite])
      · simp only [applyWrites]
        exact ih _ n b h

/-- C1: the render cache invokes the renderer subprocess at most once for
a fixed `(markup, options, configuration)` across two calls: (i) when the
output file already exists, the call returns the `(relative URI, absolute
path)` pair immediately with the build state unchanged — no subprocess
spawn, no input-file write; (ii) two successive calls spawn at most one
subprocess; and (iii) when the first call returned a pair, the second
call returns the identical pair and changes nothing. Hypotheses: the
first call returned normally, and a renderer that exits 0 wrote the
output file in its working directory (the documented subprocess
contract). -/
theorem c1_render_cache_at_most_once (sha : List Nat → PyStr) (cfg : AppConfig)
    (beh₁ beh₂ : SpawnResult) (code : PyStr) (options : List PyStr)
    (format : PyStr) ( pfx : PyStr) (st : BuildState) (r₁ r₂ : Option PyStr)
    (hNormal : (render_ditaa sha cfg beh₁ code options format pfx st).1
        = RenderOutcome.ret r₁ r₂)
    (hContract : ∀ p, beh₁ = SpawnResult.proc p → p.returncode = 0 →
      ∃ b, (outfnameOf pfx (digestOf sha cfg code options), b) ∈ p.filesWritten) :
    (fsHas st.files (outfullOf sha cfg code options pfx) = true →
       render_ditaa sha cfg beh₁ code options format pfx st =
         (RenderOutcome.ret (some (outrelOf sha cfg code options pfx))
           (some (outfullOf sha cfg code options pfx)), st)) ∧
    (render_ditaa sha cfg beh₂ code options format pfx
        ((render_ditaa sha cfg beh₁ code options format pfx st).2)).2.spawns
      ≤ st.spawns + 1 ∧
    (∀ a b, r₁ = some a → r₂ = some b →
       render_ditaa sha cfg beh₂ code options format pfx
           ((render_ditaa sha cfg beh₁ code options format pfx st).2)
         = (RenderOutcome.ret (some a) (some b),
            (render_ditaa sha cfg beh₁ code options format pfx st).2)) := by
  refine ⟨fun h => render_hit sha cfg beh₁ code options format pfx st h, ?_⟩
  by_cases hhit : fsHas st.files (outfullOf sha cfg code options pfx) = true
  · rw [render_hit sha cfg beh₁ code options format pfx st hhit]
    rw [render_hit sha cfg beh₁ code options format pfx st hhit] at hNormal
    constructor
    · rw [render_hit sha cfg beh₂ code options format pfx st hhit]
      simp
    · intro a b ha hb
      injection hNormal with h1 h2
      rw [ha] at h1
      rw [hb] at h2
      injection h1 with h1
      injection h2 with h2
      rw [← h1, ← h2]
      exact render_hit sha cfg beh₂ code options format pfx st hhit
  · have hmiss : fsHas st.files (outfullOf sha cfg code options pfx) = false := by
      simpa using hhit
    cases beh₁ with
    | spawnError e =>
      by_cases he : e = pyENOENT
      · subst he
        rw [render_miss_enoent sha cfg code options format pfx st hmiss]
        rw [render_miss_enoent sha cfg code options format pfx st hmiss] at hNormal
        constructor
        · have := render_spawns_le sha cfg beh₂ code options format pfx
            (enoentState sha cfg code options pfx st)
          simpa [enoentState] using this
        · intro a b ha hb
          injection hNormal with h1 h2
          rw [ha] at h1
          exact absurd h1.symm (by simp)
      · rw [render_miss_spawn_other sha cfg e code options format pfx st he hmiss]
          at hNormal
        exact absurd hNormal (by simp)
    | proc p =>
      rw [render_miss_proc sha cfg p code options format pfx st hmiss] at hNormal ⊢
      obtain ⟨hrc, hr₁, hr₂⟩ :=
        procOutcome_ret sha cfg p code options pfx r₁ r₂ hNormal
      obtain ⟨bb, hmem⟩ := hContract p rfl hrc
      have hhit' : fsHas (procState sha cfg p code options pfx st).files
          (outfullOf sha cfg code options pfx) = true := by
        simp only [procState]
        exact fsHas_applyWrites_mem (imgdirOf cfg) p.filesWritten _ _ bb hmem
      constructor
      · rw [render_hit sha cfg beh₂ code options format pfx _ hhit']
        simp [procState]
      · intro a b ha hb
        rw [ha] at hr₁
        rw [hb] at hr₂
        injection hr₁ with hr₁
        injection hr₂ with hr₂
        rw [hr₁, hr₂]
        exact render_hit sha cfg beh₂ code options format pfx _ hhit'

/-- C1 witness: after a first successful render of `A->B` from the empty
cache, a second identical call spawns no further subprocess (one spawn in
total) and returns the identical pair without changing the state. -/
theorem c1_witness :
    (render_ditaa hexOfBytes cfgA (SpawnResult.proc procOkA) codeA []
        (strLit "html") pfxA st1A).2.spawns ≤ st0.spawns + 1 ∧
    render_ditaa hexOfBytes cfgA (SpawnResult.proc procOkA) codeA []
        (strLit "html") pfxA st1A
      = (RenderOutcome.ret (some (outrelOf hexOfBytes cfgA codeA [] pfxA))
          (some (outfullOf hexOfBytes cfgA codeA [] pfxA)), st1A) := by
  have h := c1_render_cache_at_most_once hexOfBytes cfgA (SpawnResult.proc procOkA)
    (SpawnResult.proc procOkA) codeA [] (strLit "html") pfxA st0
    (some (outrelOf hexOfBytes cfgA codeA [] pfxA))
    (some (outfullOf hexOfBytes cfgA codeA [] pfxA))
    (by decide)
    (by
      intro p hp hrc
      cases hp
      exact ⟨[137, 80, 78, 71], by simp [procOkA]⟩)
  exact ⟨h.2.1, h.2.2 _ _ rfl rfl⟩

/-- C10: every call of `render_ditaa` that returns normally — cache hit,
missing-executable `(None, None)` return, or successful render — leaves
the process working directory equal to what it was at entry, even though
the routine changes directory to the image output directory around the
subprocess spawn (lines 149-150, 164, 167). -/
theorem c10_cwd_restored (sha : List Nat → PyStr) (cfg : AppConfig)
    (beh : SpawnResult) (code : PyStr) (options : List PyStr) (format : PyStr)
    ( pfx : PyStr) (st : BuildState) (r₁ r₂ : Option PyStr)
    (h : (render_ditaa sha cfg beh code options format pfx st).1
        = RenderOutcome.ret r₁ r₂) :
    (render_ditaa sha cfg beh code options format pfx st).2.cwd = st.cwd := by
  by_cases hhit : fsHas st.files (outfullOf sha cfg code options pfx) = true
  · rw [render_hit sha cfg beh code options format pfx st hhit]
  · have hmiss : fsHas st.files (outfullOf sha cfg code options pfx) = false := by
      simpa using hhit
    cases beh with
    | spawnError e =>
      by_cases he : e = pyENOENT
      · subst he
        rw [render_miss_enoent sha cfg code options format pfx st hmiss]
        simp [enoentState]
      · rw [render_miss_spawn_other sha cfg e code options format pfx st he hmiss] at h
        exact absurd h (by simp)
    | proc p =>
      rw [render_miss_proc sha cfg p code options format pfx st hmiss]
      simp [procState]

/-- C10 witness: a successful render from the empty cache returns
normally and restores the working directory. -/
theorem c10_witness :
    (render_ditaa hexOfBytes cfgA (SpawnResult.proc procOkA) codeA []
        (strLit "html") pfxA st0).2.cwd = st0.cwd :=
  c10_cwd_restored hexOfBytes cfgA (SpawnResult.proc procOkA) codeA []
    (strLit "html") pfxA st0
    (some (outrelOf hexOfBytes cfgA codeA [] pfxA))
    (some (outfullOf hexOfBytes cfgA codeA [] pfxA))
    (by decide)

/-- C3 (code-bug evaluation): with the renderer executable missing
(`Popen` raises `ENOENT`), the first `render_ditaa` call warns once and
sets `app.builder._ditaa_warned_dot = True` (line 163), and a second call
in the same process emits a second warning even though the flag is
already set — the flag is assigned but never read anywhere in the file,
so nothing suppresses the repeat. The claim (and spec) state that
subsequent attempts emit zero additional warnings. -/
theorem c3_missing_renderer_warns_every_call :
    (renderMissing st0).2.warned_dot = true ∧
    (renderMissing st0).2.warnings.length = 1 ∧
    (renderMissing (renderMissing st0).2).2.warned_dot = true ∧
    (renderMissing (renderMissing st0).2).2.warnings.length = 2 := by
  decide

/-- C4 (code-bug evaluation): when the renderer executable cannot be
located, `render_ditaa` does return the empty pair `(None, None)`
(line 165), but `on_doctree_resolved` ignores the sentinel and still
replaces the `ditaa` node with `nodes.image(uri=None, ...)` (lines
195-199) — tree resolution substitutes an image node for the
`DiagramNode`, contrary to the claim. -/
theorem c4_missing_renderer_still_substitutes :
    (render_ditaa hexOfBytes cfgA (SpawnResult.spawnError pyENOENT) nodeA.code
        nodeA.options cfgA.format (strLit "ditaa") st0).1
      = RenderOutcome.ret none none ∧
    (resolveDitaaNode hexOfBytes cfgA (SpawnResult.spawnError pyENOENT) nodeA st0).1
      = ResolveResult.replaced
          { uri := none, candidates := none, img_options := [] } := by
  decide

/-!
### C5: nonzero exit raises a `DitaaError` carrying both streams
-/

theorem escByteChar_plain (c : Nat)
    (hc : 32 ≤ c ∧ c < 127 ∧ c ≠ 34 ∧ c ≠ 39 ∧ c ≠ 92) :
    escByteChar 39 c = [c] := by
  unfold escByteChar
  rw [if_neg (by omega), if_neg (by omega), if_neg (by omega), if_neg (by omega),
      if_neg (by omega)]

theorem byteContentEnc_plain : ∀ b : List Nat, plainBytes b →
    byteContentEnc 39 b = b := by
  intro b
  induction b with
  | nil => intro _; rfl
  | cons c t ih =>
    intro hb
    simp only [byteContentEnc]
    rw [escByteChar_plain c (hb c (by simp)), ih (fun x hx => hb x (by simp [hx]))]
    rfl

theorem plainBytes_repr (b : List Nat) (hb : plainBytes b) :
    pyReprBytes b = 98 :: 39 :: (b ++ [39]) := by
  unfold pyReprBytes
  have hq : bytesQuote b = 39 := by
    unfold bytesQuote
    rw [if_neg]
    intro hmem
    have := hb 39 hmem.1
    omega
  rw [hq, byteContentEnc_plain b hb]

/-- C5: a render invocation whose subprocess exits with a nonzero status
fails with a `DitaaError` whose message carries the captured stderr and
stdout — on the normal `communicate` path and on the broken-pipe
direct-read path alike — and for plain printable stream text (no quote or
backslash characters) the text occurs verbatim inside the message. -/
theorem c5_nonzero_exit_raises (sha : List Nat → PyStr) (cfg : AppConfig)
    (p : ProcBehavior) (code : PyStr) (options : List PyStr) (format : PyStr)
    ( pfx : PyStr) (st : BuildState) (stdout stderr : List Nat)
    (hmiss : fsHas st.files (outfullOf sha cfg code options pfx) = false)
    (hstreams : commStreams p = some (stdout, stderr))
    (hrc : p.returncode ≠ 0) :
    (render_ditaa sha cfg (SpawnResult.proc p) code options format pfx st).1
      = RenderOutcome.ditaaError (ditaaErrorMsg stderr stdout) ∧
    (plainBytes stderr → containsSub stderr (ditaaErrorMsg stderr stdout)) ∧
    (plainBytes stdout → containsSub stdout (ditaaErrorMsg stderr stdout)) := by
  refine ⟨?_, ?_, ?_⟩
  · rw [render_miss_proc sha cfg p code options format pfx st hmiss]
    unfold commStreams at hstreams
    unfold procOutcome
    split at hstreams
    · injection hstreams with hs
      injection hs with hs1 hs2
      simp [hrc, hs1, hs2]
    · split at hstreams
      · injection hstreams with hs
        injection hs with hs1 hs2
        rename_i e heq he
        simp [he, hrc, hs1, hs2]
      · exact absurd hstreams (by simp)
    · exact absurd hstreams (by simp)
  · intro he
    refine ⟨strLit "ditaa exited with error:\n[stderr]\n" ++ [98, 39],
      [39] ++ (strLit "\n[stdout]\n" ++ pyReprBytes stdout), ?_⟩
    unfold ditaaErrorMsg
    rw [plainBytes_repr stderr he]
    simp [List.append_assoc]
  · intro ho
    refine ⟨strLit "ditaa exited with error:\n[stderr]\n" ++ pyReprBytes stderr ++
        strLit "\n[stdout]\n" ++ [98, 39], [39], ?_⟩
    unfold ditaaErrorMsg
    rw [plainBytes_repr stdout ho]
    simp [List.append_assoc]

/-- C5 witness: the scenario of the spec — a stub renderer exits with
status 2 after writing `bad syntax` to stderr; the build fails with a
`DitaaError` whose message contains the literal text `bad syntax`. -/
theorem c5_witness :
    (render_ditaa hexOfBytes cfgA (SpawnResult.proc procBadA) codeA []
        (strLit "html") pfxA st0).1
      = RenderOutcome.ditaaError (ditaaErrorMsg badSyntaxBytes []) ∧
    containsSub badSyntaxBytes (ditaaErrorMsg badSyntaxBytes []) := by
  have h := c5_nonzero_exit_raises hexOfBytes cfgA procBadA codeA []
    (strLit "html") pfxA st0 [] badSyntaxBytes (by decide) (by decide) (by decide)
  exact ⟨h.1, h.2.1 (by unfold plainBytes; decide)⟩

/-- C6: when `communicate` with the renderer fails because the subprocess
already terminated (an `OSError` with `errno == EPIPE`), `render_ditaa`
falls back to the directly read stream contents and the process exit
status instead of propagating the failure; an `OSError` with any other
errno, and any non-`OSError` fault, is propagated unmodified. -/
theorem c6_broken_pipe_fallback (sha : List Nat → PyStr) (cfg : AppConfig)
    (p : ProcBehavior) (code : PyStr) (options : List PyStr) (format : PyStr)
    ( pfx : PyStr) (st : BuildState)
    (hmiss : fsHas st.files (outfullOf sha cfg code options pfx) = false) :
    (p.commResult = CommResult.oserror pyEPIPE →
       (render_ditaa sha cfg (SpawnResult.proc p) code options format pfx st).1
         = (if p.returncode ≠ 0 then
              RenderOutcome.ditaaError (ditaaErrorMsg p.directStderr p.directStdout)
            else
              RenderOutcome.ret (some (outrelOf sha cfg code options pfx))
                (some (outfullOf sha cfg code options pfx)))) ∧
    (∀ e, p.commResult = CommResult.oserror e → e ≠ pyEPIPE →
       (render_ditaa sha cfg (SpawnResult.proc p) code options format pfx st).1
         = RenderOutcome.osErrorRaised e) ∧
    (∀ t, p.commResult = CommResult.otherFault t →
       (render_ditaa sha cfg (SpawnResult.proc p) code options format pfx st).1
         = RenderOutcome.faultRaised t) := by
  rw [render_miss_proc sha cfg p code options format pfx st hmiss]
  refine ⟨?_, ?_, ?_⟩
  · intro hc
    unfold procOutcome
    simp only [hc]
    simp
  · intro e hc he
    unfold procOutcome
    simp only [hc]
    simp [he]
  · intro t hc
    unfold procOutcome
    simp only [hc]

/-- C6 witness: a broken pipe followed by exit status 0 still succeeds
with the output pair, while an `OSError` with `errno == EACCES` (13) is
re-raised unmodified. -/
theorem c6_witness :
    (render_ditaa hexOfBytes cfgA (SpawnResult.proc procPipeA) codeA []
        (strLit "html") pfxA st0).1
      = RenderOutcome.ret (some (outrelOf hexOfBytes cfgA codeA [] pfxA))
          (some (outfullOf hexOfBytes cfgA codeA [] pfxA)) ∧
    (render_ditaa hexOfBytes cfgA (SpawnResult.proc procDeniedA) codeA []
        (strLit "html") pfxA st0).1
      = RenderOutcome.osErrorRaised 13 := by
  constructor
  · have h := (c6_broken_pipe_fallback hexOfBytes cfgA procPipeA codeA []
      (strLit "html") pfxA st0 (by decide)).1 rfl
    simpa [procPipeA] using h
  · exact (c6_broken_pipe_fallback hexOfBytes cfgA procDeniedA codeA []
      (strLit "html") pfxA st0 (by decide)).2.1 13 rfl (by decide)

/-!
### C7: the option-partition rule of `Ditaa.run`
-/

theorem optionsPartition_foldl : ∀ (opts : List (PyStr × Option PyStr))
    (acc : List PyStr × List (PyStr × Option PyStr)),
    opts.foldl partStep acc
    = (acc.1 ++ (optionsPartition opts).1, acc.2 ++ (optionsPartition opts).2) := by
  intro opts
  induction opts with
  | nil => intro acc; simp [optionsPartition]
  | cons kv t ih =>
    intro acc
    rw [List.foldl_cons, ih]
    have h2 : optionsPartition (kv :: t)
        = ((partStep ([], []) kv).1 ++ (optionsPartition t).1,
           (partStep ([], []) kv).2 ++ (optionsPartition t).2) := by
      show (kv :: t).foldl partStep ([], []) = _
      rw [List.foldl_cons, ih]
    rw [h2]
    unfold partStep
    by_cases hk : kv.1.take 2 = [45, 45] <;> simp [hk, List.append_assoc]

theorem optionsPartition_spec (opts : List (PyStr × Option PyStr)) :
    (optionsPartition opts).1
      = (opts.filter (fun kv => decide (kv.1.take 2 = [45, 45]))).flatMap
          (fun kv => kv.1 :: kv.2.toList) ∧
    (optionsPartition opts).2
      = opts.filter (fun kv => ! decide (kv.1.take 2 = [45, 45])) := by
  induction opts with
  | nil => exact ⟨rfl, rfl⟩
  | cons kv t ih =>
    have h2 : optionsPartition (kv :: t)
        = ((partStep ([], []) kv).1 ++ (optionsPartition t).1,
           (partStep ([], []) kv).2 ++ (optionsPartition t).2) := by
      show (kv :: t).foldl partStep ([], []) = _
      rw [List.foldl_cons, optionsPartition_foldl t]
    rw [h2]
    unfold partStep
    by_cases hk : kv.1.take 2 = [45, 45]
    · cases hv : kv.2 with
      | none =>
        constructor
        · simp [hk, hv, ih.1, Option.toList]
        · simp [hk, ih.2]
      | some v =>
        constructor
        · simp [hk, hv, ih.1, Option.toList]
        · simp [hk, ih.2]
    · constructor
      · simp [hk, ih.1]
      · simp [hk, ih.2]

/-- C7: in every directive invocation, an option key beginning with `--`
is appended to the node's renderer-option list as the flag token followed
by its value token when a value was given (flag-only options contribute
just the flag), and never lands in the image-option map; an option key
not beginning with `--` is copied verbatim (key and value) into the
image-option map, and every token of the renderer-option list originates
from a `--` option as its key or its value. -/
theorem c7_option_partition (code : PyStr) (opts : List (PyStr × Option PyStr)) :
    ((mkDitaaNode code opts).options
       = (opts.filter (fun kv => decide (kv.1.take 2 = [45, 45]))).flatMap
           (fun kv => kv.1 :: kv.2.toList)) ∧
    ((mkDitaaNode code opts).img_options
       = opts.filter (fun kv => ! decide (kv.1.take 2 = [45, 45]))) ∧
    (∀ k v, (k, v) ∈ (mkDitaaNode code opts).img_options →
       (k, v) ∈ opts ∧ ¬ k.take 2 = [45, 45]) ∧
    (∀ k v, (k, v) ∈ opts → k.take 2 = [45, 45] →
       (k, v) ∉ (mkDitaaNode code opts).img_options) ∧
    (∀ tkn ∈ (mkDitaaNode code opts).options,
       ∃ kv, kv ∈ opts ∧ kv.1.take 2 = [45, 45] ∧ (tkn = kv.1 ∨ kv.2 = some tkn)) := by
  have hspec := optionsPartition_spec opts
  have h1 : (mkDitaaNode code opts).options = (optionsPartition opts).1 := rfl
  have h2 : (mkDitaaNode code opts).img_options = (optionsPartition opts).2 := rfl
  refine ⟨h1.trans hspec.1, h2.trans hspec.2, ?_, ?_, ?_⟩
  · intro k v hm
    rw [h2, hspec.2] at hm
    rcases List.mem_filter.mp hm with ⟨hmem, hp⟩
    simp at hp
    exact ⟨hmem, hp⟩
  · intro k v hm hk hmem
    rw [h2, hspec.2] at hmem
    rcases List.mem_filter.mp hmem with ⟨-, hp⟩
    simp at hp
    exact hp hk
  · intro tkn hm
    rw [h1, hspec.1] at hm
    rcases List.mem_flatMap.mp hm with ⟨kv, hkv, htok⟩
    rcases List.mem_filter.mp hkv with ⟨hmem, hp⟩
    simp at hp
    rcases List.mem_cons.mp htok with h | h
    · exact ⟨kv, hmem, hp, Or.inl h⟩
    · refine ⟨kv, hmem, hp, Or.inr ?_⟩
      cases hv : kv.2 with
      | none => rw [hv] at h; simp [Option.toList] at h
      | some v => rw [hv] at h; simp [Option.toList] at h; rw [h]

/-- C7 witness: a sample option set with `--scale 2`, `width 70` and the
flag-only `--no-shadows` partitions as the claim states. -/
theorem c7_witness :
    (mkDitaaNode codeA optsA).options
      = [strLit "--scale", strLit "2", strLit "--no-shadows"] ∧
    (mkDitaaNode codeA optsA).img_options
      = [(strLit "width", some (strLit "70"))] := by
  have h := c7_option_partition codeA optsA
  constructor
  · rw [h.1]; decide
  · rw [h.2.1]; decide

/-!
### C8 and C9: the mutually exclusive input forms of `Ditaa.run`
-/

/-- C8: a directive invocation supplying both inline content and a file
path argument returns exactly one node — the warning `system_message`
reported at the directive's source line — and no `ditaa` placeholder node
is produced. -/
theorem c8_both_content_and_argument (env : DirectiveEnv) (d : DirectiveInput)
    (hargs : d.arguments ≠ []) (hcontent : d.content ≠ []) :
    (DitaaRun env d).nodes = [RNode.sysMessage bothMsg d.lineno] ∧
    (DitaaRun env d).nodes.all (fun n => ! isDiagram n) = true := by
  unfold DitaaRun
  cases ha : d.arguments with
  | nil => exact absurd ha hargs
  | cons a t => simp [hcontent, isDiagram]

/-- C8 witness: a concrete directive with both content and an argument
yields only the warning node at its line. -/
theorem c8_witness :
    (DitaaRun envA dBoth).nodes = [RNode.sysMessage bothMsg 7] ∧
    (DitaaRun envA dBoth).nodes.all (fun n => ! isDiagram n) = true :=
  c8_both_content_and_argument envA dBoth (by decide) (by decide)

/-- C9 counterexample: a directive invocation with a file argument whose
referenced file resolves and reads as the empty markup string — the
claim's antecedent (no inline content, no non-empty markup) — does not
fail with a usage warning: `Ditaa.run` creates a `ditaa` placeholder node
with empty markup, because the file-argument branch (source lines 79-98)
performs no emptiness check before node creation (lines 105-119). -/
theorem c9_counterexample :
    dArgOnly.content = [] ∧
    envEmptyFile.fileRead (envEmptyFile.relfn2path (strLit "x.ditaa")).2 = some [] ∧
    (DitaaRun envEmptyFile dArgOnly).nodes
      = [RNode.diagram { code := [], options := [], img_options := [] }] := by
  decide

/-- C9 (amended): a directive with no file argument whose inline content
joins and strips to the empty string fails with the
`Ignoring "ditaa" directive without content.` warning at the directive's
source line and produces no `ditaa` node; the file-argument form performs
no emptiness check — whenever the referenced file resolves and reads
successfully, a `ditaa` node carrying the file's markup is created, even
when that markup is empty. -/
theorem c9_empty_directive_amended (env : DirectiveEnv) (d : DirectiveInput) :
    (d.arguments = [] → pyStrip (joinNL d.content) = [] →
       (DitaaRun env d).nodes = [RNode.sysMessage ignoreMsg d.lineno] ∧
       (DitaaRun env d).nodes.all (fun n => ! isDiagram n) = true) ∧
    (∀ a t s, d.arguments = a :: t → d.content = [] →
       env.fileRead (env.relfn2path a).2 = some s →
       (DitaaRun env d).nodes = [RNode.diagram (mkDitaaNode s d.options)]) := by
  constructor
  · intro ha hstrip
    unfold DitaaRun
    rw [ha]
    simp [hstrip, isDiagram]
  · intro a t s ha hc hr
    unfold DitaaRun
    rw [ha]
    simp [hc, hr]

/-- C9 witness: the no-argument no-content form warns and produces no
node, while an argument whose file reads as empty still produces a
`ditaa` node. -/
theorem c9_witness :
    (DitaaRun envA dNoContent).nodes = [RNode.sysMessage ignoreMsg 4] ∧
    (DitaaRun envA dNoContent).nodes.all (fun n => ! isDiagram n) = true ∧
    (DitaaRun envEmptyFile dArgOnly).nodes
      = [RNode.diagram (mkDitaaNode [] dArgOnly.options)] := by
  have h1 := (c9_empty_directive_amended envA dNoContent).1 rfl (by decide)
  have h2 := (c9_empty_directive_amended envEmptyFile dArgOnly).2
    (strLit "x.ditaa") [] [] rfl rfl rfl
  exact ⟨h1.1, h1.2, h2⟩

end DitaaSpec
